import Mathlib

/-!
Verification of the secure-ai-model trusted-unwrap pipeline.

Shallow embedding of the repository's Python sources:
- `scripts/code_protection.py` (Trust Gate: integrity, anti-debug, anti-instrumentation),
- `scripts/decrypt_model.py` and `scripts/encrypt_model.py` (hybrid unwrapper),
- `main.py` (benchmark harness and startup gating).

Bytes are modelled as `List Nat` (each element a byte value), strings as `String`,
wall-clock timestamps as `Int`-valued readings of an abstract clock.  External
library primitives (AES-GCM, RSA-OAEP, SHA-256, torch deserialization) are not
part of this repository; they are modelled generically, parameterized over the
underlying block cipher / hash / deserializer, keeping exactly the structure the
repository's code relies on.
-/

/-! ## String utilities (Python `in`, `startswith`, `lower`) -/

/-- Boolean test that `needle` is a leading segment of `hay` (character lists). -/
def charsStartWith (hay needle : List Char) : Bool :=
  match hay, needle with
  | _, [] => true
  | [], _ :: _ => false
  | c :: cs, d :: ds => c == d && charsStartWith cs ds

/-- Boolean test that `needle` occurs contiguously inside `hay` (character lists). -/
def charsContain (hay needle : List Char) : Bool :=
  match hay with
  | [] => needle.isEmpty
  | _ :: rest => charsStartWith hay needle || charsContain rest needle

/-- Python's `needle in hay` on strings: substring containment. -/
def containsSub (needle hay : String) : Bool :=
  charsContain hay.toList needle.toList

/-- Python's `s.startswith(p)`. -/
def strStartsWith (s p : String) : Bool :=
  charsStartWith s.toList p.toList

/-- Python's `s.lower()` (per-character lowering). -/
def strLower (s : String) : String :=
  String.mk (s.toList.map Char.toLower)

/-! ## Byte-string utilities -/

/-- Pointwise XOR of two byte strings, truncated to the shorter one
(the masking operation used by CTR-mode and OAEP). -/
def xorBytes (a b : List Nat) : List Nat :=
  List.zipWith (fun x y => x ^^^ y) a b

/-- Big-endian unsigned integer value of a byte string (RFC 8017 OS2IP). -/
def bytesToNat (l : List Nat) : Nat :=
  l.foldl (fun acc b => acc * 256 + b) 0

/-- Big-endian `k`-byte encoding of `n % 256^k` (RFC 8017 I2OSP). -/
def natToBytes : Nat → Nat → List Nat
  | 0, _ => []
  | k + 1, n => natToBytes k (n / 256) ++ [n % 256]

theorem length_xorBytes (a b : List Nat) :
    (xorBytes a b).length = min a.length b.length := by
  simp [xorBytes]

theorem xorBytes_cancel (a b : List Nat) (h : a.length ≤ b.length) :
    xorBytes (xorBytes a b) b = a := by
  induction a generalizing b with
  | nil => simp [xorBytes]
  | cons x xs ih =>
    cases b with
    | nil => simp at h
    | cons y ys =>
      simp only [xorBytes, List.zipWith_cons_cons] at *
      refine congrArg₂ List.cons ?_ (ih ys (by simpa using h))
      exact Nat.xor_cancel_right y x

theorem length_natToBytes (k n : Nat) : (natToBytes k n).length = k := by
  induction k generalizing n with
  | zero => rfl
  | succ k ih => simp [natToBytes, ih]

theorem bytesToNat_append_singleton (l : List Nat) (b : Nat) :
    bytesToNat (l ++ [b]) = bytesToNat l * 256 + b := by
  simp [bytesToNat, List.foldl_append]

theorem bytesToNat_cons_zero (l : List Nat) :
    bytesToNat (0 :: l) = bytesToNat l := by
  simp [bytesToNat]

theorem bytesToNat_lt (l : List Nat) (hb : ∀ b ∈ l, b < 256) :
    bytesToNat l < 256 ^ l.length := by
  induction l using List.reverseRecOn with
  | nil => simp [bytesToNat]
  | append_singleton xs x ih =>
    rw [bytesToNat_append_singleton]
    have hx : x < 256 := hb x (by simp)
    have hxs : bytesToNat xs < 256 ^ xs.length :=
      ih (fun b hbmem => hb b (by simp [hbmem]))
    have : bytesToNat xs * 256 + x < (bytesToNat xs + 1) * 256 := by
      nlinarith
    calc bytesToNat xs * 256 + x < (bytesToNat xs + 1) * 256 := this
      _ ≤ 256 ^ xs.length * 256 := by
          have : bytesToNat xs + 1 ≤ 256 ^ xs.length := hxs
          nlinarith
      _ = 256 ^ (xs ++ [x]).length := by
          simp [List.length_append, pow_succ]

theorem natToBytes_bytesToNat (l : List Nat) (hb : ∀ b ∈ l, b < 256) :
    natToBytes l.length (bytesToNat l) = l := by
  induction l using List.reverseRecOn with
  | nil => rfl
  | append_singleton xs x ih =>
    have hx : x < 256 := hb x (by simp)
    rw [bytesToNat_append_singleton]
    have hlen : (xs ++ [x]).length = xs.length + 1 := by simp
    rw [hlen]
    show natToBytes xs.length ((bytesToNat xs * 256 + x) / 256) ++
        [(bytesToNat xs * 256 + x) % 256] = xs ++ [x]
    have hdiv : (bytesToNat xs * 256 + x) / 256 = bytesToNat xs := by
      rw [Nat.mul_comm, Nat.mul_add_div (by norm_num), Nat.div_eq_of_lt hx]
      omega
    have hmod : (bytesToNat xs * 256 + x) % 256 = x := by
      omega
    rw [hdiv, hmod, ih (fun b hbmem => hb b (by simp [hbmem]))]

/-! ## AES-GCM model (scripts/encrypt_model.py, scripts/decrypt_model.py)

The AEAD primitive itself is the external `cryptography` package.
Modelled from the spec: "authenticated symmetric decryption (AEAD)" producing
`ciphertext || 16-byte tag` from a 12-byte nonce, as generic counter-mode
encryption with an authentication tag, parameterized over the underlying
128-bit block cipher `E : key → block → block`.  Only the structure the
repository relies on (deterministic keystream and tag, masking by XOR,
tag checked on decrypt) is kept; the block cipher is abstract. -/

/-- Counter block: the 12-byte nonce followed by a 4-byte big-endian counter. -/
def ctrBlock (nonce : List Nat) (i : Nat) : List Nat :=
  nonce ++ natToBytes 4 i

/-- Modelled from the spec: the CTR keystream of the external AEAD primitive —
`n` bytes taken from the blocks `E key (nonce ∥ counter)`, counters from 2. -/
def gcmKeystream (E : List Nat → List Nat → List Nat)
    (key nonce : List Nat) (n : Nat) : List Nat :=
  ((List.range ((n + 15) / 16)).flatMap (fun i => E key (ctrBlock nonce (i + 2)))).take n

/-- Modelled from the spec: the 16-byte authentication tag of the external AEAD
primitive: a deterministic hash of the ciphertext under the subkey
`E key 0¹⁶`, masked with `E key (nonce ∥ 1)`.  (The field multiplication of
GHASH is approximated by multiplication mod `2¹²⁸`; the repository relies only
on the tag being a deterministic 16-byte function of key, nonce and
ciphertext.) -/
def gcmTag (E : List Nat → List Nat → List Nat)
    (key nonce ct : List Nat) : List Nat :=
  let hsub := bytesToNat (E key (List.replicate 16 0))
  let blocks := (List.range ((ct.length + 15) / 16)).map
    (fun i => bytesToNat ((ct.drop (16 * i)).take 16))
  let ghash := blocks.foldl (fun acc b => ((acc ^^^ b) * hsub) % (2 ^ 128)) 0
  xorBytes (natToBytes 16 ghash) (E key (ctrBlock nonce 1))

/-- Modelled from the spec: `AESGCM(key).encrypt(nonce, pt, None)` of the
external library — ciphertext (plaintext masked with the keystream) followed
by the 16-byte tag. -/
def aesgcm_encrypt (E : List Nat → List Nat → List Nat)
    (key nonce pt : List Nat) : List Nat :=
  let ct := xorBytes pt (gcmKeystream E key nonce pt.length)
  ct ++ gcmTag E key nonce ct

/-- Modelled from the spec: `AESGCM(key).decrypt(nonce, data, None)` of the
external library — split off the trailing 16-byte tag, recompute it over the
ciphertext, fail (`InvalidTag`, here `none`) on mismatch, else unmask. -/
def aesgcm_decrypt (E : List Nat → List Nat → List Nat)
    (key nonce data : List Nat) : Option (List Nat) :=
  let ct := data.take (data.length - 16)
  let tag := data.drop (data.length - 16)
  if gcmTag E key nonce ct = tag then
    some (xorBytes ct (gcmKeystream E key nonce ct.length))
  else none

/-- The encrypted-asset blob written by `encrypt_model`
(`scripts/encrypt_model.py` lines 86-107): the 12-byte nonce followed by the
AEAD output `ciphertext || tag`. -/
def encrypt_model_blob (E : List Nat → List Nat → List Nat)
    (key nonce pt : List Nat) : List Nat :=
  nonce ++ aesgcm_encrypt E key nonce pt

/-- Embedding of `decrypt_model` (`scripts/decrypt_model.py` lines 221-233):
`nonce, ciphertext = data[:12], data[12:]` then `aesgcm.decrypt(nonce,
ciphertext, None)` — no length validation of its own. -/
def decrypt_model (E : List Nat → List Nat → List Nat)
    (key data : List Nat) : Option (List Nat) :=
  aesgcm_decrypt E key (data.take 12) (data.drop 12)

theorem length_gcmKeystream (E : List Nat → List Nat → List Nat)
    (key nonce : List Nat) (n : Nat) (hE : ∀ k b, (E k b).length = 16) :
    (gcmKeystream E key nonce n).length = n := by
  unfold gcmKeystream
  rw [List.length_take]
  have hbind : ((List.range ((n + 15) / 16)).flatMap
      (fun i => E key (ctrBlock nonce (i + 2)))).length = 16 * ((n + 15) / 16) := by
    rw [List.length_flatMap]
    rw [show (List.length ∘ fun i => E key (ctrBlock nonce (i + 2))) = fun _ : Nat => 16
      from funext fun i => hE key _]
    simp [List.map_const', Nat.mul_comm]
  rw [hbind]
  have : n ≤ 16 * ((n + 15) / 16) := by omega
  omega

theorem length_gcmTag (E : List Nat → List Nat → List Nat)
    (key nonce ct : List Nat) (hE : ∀ k b, (E k b).length = 16) :
    (gcmTag E key nonce ct).length = 16 := by
  unfold gcmTag
  rw [length_xorBytes, length_natToBytes, hE]
  simp

/-- C2: for every 16-byte content key, every 12-byte nonce, and every plaintext
byte string, decrypting the encrypted asset produced by the encryption
operation (nonce prepended to the AEAD ciphertext-and-tag) with the same key
returns exactly the original plaintext.  Quantified over every block cipher
`E` whose blocks are 16 bytes. -/
theorem decrypt_model_encrypt_model_roundtrip
    (E : List Nat → List Nat → List Nat) (key nonce pt : List Nat)
    (hE : ∀ k b, (E k b).length = 16)
    (hkey : key.length = 16) (hnonce : nonce.length = 12) :
    decrypt_model E key (encrypt_model_blob E key nonce pt) = some pt := by
  unfold decrypt_model encrypt_model_blob
  rw [List.take_left' hnonce, List.drop_left' hnonce]
  have hkslen : (gcmKeystream E key nonce pt.length).length = pt.length :=
    length_gcmKeystream E key nonce pt.length hE
  simp only [aesgcm_encrypt, aesgcm_decrypt]
  set ks := gcmKeystream E key nonce pt.length with hks
  set ct := xorBytes pt ks with hct
  set tag := gcmTag E key nonce ct with htag
  have hctlen : ct.length = pt.length := by
    rw [hct, length_xorBytes, hkslen, Nat.min_self]
  have htaglen : tag.length = 16 := length_gcmTag E key nonce ct hE
  have hlen : (ct ++ tag).length - 16 = ct.length := by
    simp [htaglen]
  rw [hlen, List.take_left, List.drop_left, if_pos rfl, hctlen, ← hks]
  exact congrArg some (xorBytes_cancel pt ks (by omega))

/-- Witness for C2 at a concrete cipher, key, nonce, and plaintext
(the bytes of "hello"). -/
theorem decrypt_model_encrypt_model_roundtrip_witness :
    decrypt_model (fun _ _ => List.replicate 16 0) (List.replicate 16 1)
      (encrypt_model_blob (fun _ _ => List.replicate 16 0) (List.replicate 16 1)
        (List.replicate 12 2) [104, 101, 108, 108, 111]) =
      some [104, 101, 108, 108, 111] :=
  decrypt_model_encrypt_model_roundtrip _ _ _ _
    (fun _ _ => by simp) (by simp) (by simp)

/-- C10: `decrypt_model` performs no length validation of its input blob: on a
blob shorter than 12 bytes it still splits at offset 12 (the nonce being all
available bytes, the ciphertext empty) and hands the pieces to the AEAD
decrypt call, whose tag check is the only thing that rejects the blob — the
result is exactly the AEAD failure, never a distinct validation error. -/
theorem decrypt_model_no_length_validation
    (E : List Nat → List Nat → List Nat) (key data : List Nat)
    (hE : ∀ k b, (E k b).length = 16) (h : data.length < 12) :
    decrypt_model E key data = aesgcm_decrypt E key data [] ∧
    aesgcm_decrypt E key data [] = none := by
  constructor
  · unfold decrypt_model
    rw [List.take_of_length_le (Nat.le_of_lt h),
      List.drop_eq_nil_of_le (Nat.le_of_lt h)]
  · have hne : gcmTag E key data [] ≠ [] := by
      intro hcontra
      have h16 := length_gcmTag E key data [] hE
      rw [hcontra] at h16
      simp at h16
    simp only [aesgcm_decrypt, List.take_nil, List.drop_nil, if_neg hne]

/-- Witness for C10 at a concrete 3-byte blob. -/
theorem decrypt_model_no_length_validation_witness :
    decrypt_model (fun _ _ => List.replicate 16 0) (List.replicate 16 1) [1, 2, 3] =
      aesgcm_decrypt (fun _ _ => List.replicate 16 0) (List.replicate 16 1) [1, 2, 3] [] ∧
    aesgcm_decrypt (fun _ _ => List.replicate 16 0) (List.replicate 16 1) [1, 2, 3] [] = none :=
  decrypt_model_no_length_validation _ _ _ (fun _ _ => by simp) (by decide)

/-! ## RSA-OAEP model (scripts/encrypt_model.py lines 109-121, scripts/decrypt_model.py lines 155-171)

The asymmetric primitive is the external `cryptography` package
(`public_key.encrypt` / `private_key.decrypt` with
`padding.OAEP(mgf=MGF1(SHA256), algorithm=SHA256, label=None)`).
Modelled from the spec: "asymmetric unwrap (OAEP-padded decrypt)" with
"mask-generation function and hash both instantiated with a 256-bit
collision-resistant hash, no auxiliary label" — RFC 8017 EME-OAEP over an
abstract 32-byte hash `H`, with the modular-exponentiation layer abstracted
by the RSA key-pair property `(m ^ e % n) ^ d % n = m`. -/

/-- MGF1 mask generation (RFC 8017 B.2.1): concatenated hashes of
`mgfSeed ∥ counter`, truncated to `len` bytes. -/
def mgf1 (H : List Nat → List Nat) (mgfSeed : List Nat) (len : Nat) : List Nat :=
  ((List.range ((len + 31) / 32)).flatMap (fun i => H (mgfSeed ++ natToBytes 4 i))).take len

/-- EME-OAEP encoding (RFC 8017 7.1.1 step 2) with empty label:
`EM = 0x00 ∥ maskedSeed ∥ maskedDB` where `DB = lHash ∥ PS ∥ 0x01 ∥ M`. -/
def oaepPad (H : List Nat → List Nat) (k : Nat) (seed msg : List Nat) : List Nat :=
  let lHash := H []
  let ps := List.replicate (k - msg.length - 2 * 32 - 2) 0
  let db := lHash ++ (ps ++ 1 :: msg)
  let dbMask := mgf1 H seed (k - 32 - 1)
  let maskedDB := xorBytes db dbMask
  let seedMask := mgf1 H maskedDB 32
  let maskedSeed := xorBytes seed seedMask
  0 :: (maskedSeed ++ maskedDB)

/-- EME-OAEP decoding (RFC 8017 7.1.2 step 3) with empty label: unmask the
seed and DB, check the leading `0x00` byte and `lHash`, skip the zero
padding, and require the `0x01` separator before the message. -/
def oaepUnpad (H : List Nat → List Nat) (k : Nat) (em : List Nat) : Option (List Nat) :=
  match em with
  | [] => none
  | y :: rest =>
    let maskedSeed := rest.take 32
    let maskedDB := rest.drop 32
    let seedMask := mgf1 H maskedDB 32
    let seed := xorBytes maskedSeed seedMask
    let dbMask := mgf1 H seed (k - 32 - 1)
    let db := xorBytes maskedDB dbMask
    let afterPS := (db.drop 32).dropWhile (fun b => b == 0)
    if y = 0 ∧ db.take 32 = H [] then
      match afterPS with
      | 1 :: msg => some msg
      | _ => none
    else none

/-- The wrapped-key blob written by `encrypt_model`
(`scripts/encrypt_model.py` lines 109-121): OAEP-encode the content key with
a fresh random `seed`, then apply the public RSA operation and serialize to
the modulus length `k`. -/
def rsa_oaep_wrap (H : List Nat → List Nat) (n e k : Nat)
    (seed key : List Nat) : List Nat :=
  natToBytes k (bytesToNat (oaepPad H k seed key) ^ e % n)

/-- Embedding of `decrypt_aes_key` (`scripts/decrypt_model.py` lines 155-171):
apply the private RSA operation to the wrapped-key blob and OAEP-decode
(RSA-OAEP with MGF1-SHA256, SHA-256, no label). -/
def decrypt_aes_key (H : List Nat → List Nat) (n d k : Nat)
    (encKey : List Nat) : Option (List Nat) :=
  oaepUnpad H k (natToBytes k (bytesToNat encKey ^ d % n))

theorem length_mgf1 (H : List Nat → List Nat) (mgfSeed : List Nat) (len : Nat)
    (hH : ∀ x, (H x).length = 32) : (mgf1 H mgfSeed len).length = len := by
  unfold mgf1
  rw [List.length_take]
  have hbind : ((List.range ((len + 31) / 32)).flatMap
      (fun i => H (mgfSeed ++ natToBytes 4 i))).length = 32 * ((len + 31) / 32) := by
    rw [List.length_flatMap]
    rw [show (List.length ∘ fun i => H (mgfSeed ++ natToBytes 4 i)) = fun _ : Nat => 32
      from funext fun i => hH _]
    simp [List.map_const', Nat.mul_comm]
  rw [hbind]
  have : len ≤ 32 * ((len + 31) / 32) := by omega
  omega

theorem mem_mgf1_lt (H : List Nat → List Nat) (mgfSeed : List Nat) (len : Nat)
    (hHb : ∀ x, ∀ b ∈ H x, b < 256) : ∀ b ∈ mgf1 H mgfSeed len, b < 256 := by
  intro b hb
  have hmem := List.mem_of_mem_take hb
  obtain ⟨i, _, hmemH⟩ := List.mem_flatMap.mp hmem
  exact hHb _ b hmemH

theorem mem_xorBytes_lt (a b : List Nat) (ha : ∀ x ∈ a, x < 256)
    (hb : ∀ x ∈ b, x < 256) : ∀ c ∈ xorBytes a b, c < 256 := by
  induction a generalizing b with
  | nil => simp [xorBytes]
  | cons x xs ih =>
    cases b with
    | nil => simp [xorBytes]
    | cons y ys =>
      intro c hc
      simp only [xorBytes, List.zipWith_cons_cons, List.mem_cons] at hc
      rcases hc with hc | hc
      · subst hc
        have hxy : x ^^^ y < 2 ^ 8 :=
          Nat.xor_lt_two_pow (by simpa using ha x (by simp)) (by simpa using hb y (by simp))
        simpa using hxy
      · exact ih ys (fun z hz => ha z (by simp [hz])) (fun z hz => hb z (by simp [hz])) c hc

theorem bytesToNat_natToBytes_of_lt (k c : Nat) (h : c < 256 ^ k) :
    bytesToNat (natToBytes k c) = c := by
  induction k generalizing c with
  | zero =>
    simp [natToBytes, bytesToNat]
    omega
  | succ k ih =>
    show bytesToNat (natToBytes k (c / 256) ++ [c % 256]) = c
    rw [bytesToNat_append_singleton]
    have : c / 256 < 256 ^ k := by
      rw [pow_succ] at h
      omega
    rw [ih _ this]
    omega

theorem dropWhile_replicate_zero (m : Nat) (l : List Nat) :
    List.dropWhile (fun b => b == 0) (List.replicate m 0 ++ l) =
      List.dropWhile (fun b => b == 0) l := by
  induction m with
  | zero => simp
  | succ m ih =>
    rw [List.replicate_succ, List.cons_append, List.dropWhile_cons_of_pos (by simp)]
    exact ih

theorem oaepUnpad_oaepPad (H : List Nat → List Nat) (seed msg : List Nat) (k : Nat)
    (hH : ∀ x, (H x).length = 32)
    (hseedlen : seed.length = 32)
    (hk : msg.length + 2 * 32 + 2 ≤ k) :
    oaepUnpad H k (oaepPad H k seed msg) = some msg := by
  have hlHashlen : (H []).length = 32 := hH []
  set dbMask := mgf1 H seed (k - 32 - 1) with hdbMaskdef
  set db := H [] ++ (List.replicate (k - msg.length - 2 * 32 - 2) 0 ++ 1 :: msg) with hdbdef
  set maskedDB := xorBytes db dbMask with hmaskedDBdef
  set seedMask := mgf1 H maskedDB 32 with hseedMaskdef
  set maskedSeed := xorBytes seed seedMask with hmaskedSeeddef
  have hpad : oaepPad H k seed msg = 0 :: (maskedSeed ++ maskedDB) := rfl
  have hdbMasklen : dbMask.length = k - 32 - 1 := length_mgf1 H seed _ hH
  have hdblen : db.length = k - 32 - 1 := by
    rw [hdbdef]
    simp only [List.length_append, List.length_replicate, List.length_cons, hlHashlen]
    omega
  have hmaskedDBlen : maskedDB.length = k - 32 - 1 := by
    rw [hmaskedDBdef, length_xorBytes, hdblen, hdbMasklen, Nat.min_self]
  have hseedMasklen : seedMask.length = 32 := length_mgf1 H maskedDB _ hH
  have hmaskedSeedlen : maskedSeed.length = 32 := by
    rw [hmaskedSeeddef, length_xorBytes, hseedlen, hseedMasklen, Nat.min_self]
  rw [hpad]
  simp only [oaepUnpad]
  rw [List.take_left' hmaskedSeedlen, List.drop_left' hmaskedSeedlen]
  rw [← hseedMaskdef, hmaskedSeeddef]
  rw [xorBytes_cancel seed seedMask (by omega)]
  rw [← hdbMaskdef, hmaskedDBdef]
  rw [xorBytes_cancel db dbMask (by omega)]
  rw [hdbdef]
  rw [List.take_left' hlHashlen, List.drop_left' hlHashlen]
  rw [dropWhile_replicate_zero]
  rw [List.dropWhile_cons_of_neg (by simp)]
  simp

theorem length_oaepPad (H : List Nat → List Nat) (seed msg : List Nat) (k : Nat)
    (hH : ∀ x, (H x).length = 32)
    (hseedlen : seed.length = 32)
    (hk : msg.length + 2 * 32 + 2 ≤ k) :
    (oaepPad H k seed msg).length = k := by
  have hm : ∀ s l, (mgf1 H s l).length = l := fun s l => length_mgf1 H s l hH
  simp only [oaepPad, List.length_cons, List.length_append, length_xorBytes,
    List.length_replicate, List.length_cons, hm, hH, hseedlen]
  omega

theorem mem_oaepPad_lt (H : List Nat → List Nat) (seed msg : List Nat) (k : Nat)
    (hHb : ∀ x, ∀ b ∈ H x, b < 256)
    (hseedb : ∀ b ∈ seed, b < 256)
    (hmsgb : ∀ b ∈ msg, b < 256) :
    ∀ b ∈ oaepPad H k seed msg, b < 256 := by
  intro b hb
  simp only [oaepPad, List.mem_cons, List.mem_append] at hb
  rcases hb with rfl | hb | hb
  · norm_num
  · exact mem_xorBytes_lt seed _ hseedb (mem_mgf1_lt H _ _ hHb) b hb
  · refine mem_xorBytes_lt _ _ ?_ (mem_mgf1_lt H _ _ hHb) b hb
    intro x hx
    simp only [List.mem_append, List.mem_cons] at hx
    rcases hx with hx | hx | rfl | hx
    · exact hHb [] x hx
    · rw [List.eq_of_mem_replicate hx]; norm_num
    · norm_num
    · exact hmsgb x hx

/-- C3: for every RSA key pair of the configured modulus size (any `n`, `e`,
`d`, `k` with `256^(k-1) ≤ n ≤ 256^k` and `(m^e mod n)^d mod n = m` for
`m < n`) and every content key of the configured 16-byte length, unwrapping
(RSA-OAEP decrypt with MGF1 and hash over an abstract 32-byte digest, no
label) the wrapped key produced by wrapping that content key under the
corresponding public key returns exactly the original content key. -/
theorem decrypt_aes_key_unwraps_wrapped_key
    (H : List Nat → List Nat) (seed key : List Nat) (n e d k : Nat)
    (hH : ∀ x, (H x).length = 32)
    (hHb : ∀ x, ∀ b ∈ H x, b < 256)
    (hseedlen : seed.length = 32) (hseedb : ∀ b ∈ seed, b < 256)
    (hkeylen : key.length = 16) (hkeyb : ∀ b ∈ key, b < 256)
    (hk : key.length + 2 * 32 + 2 ≤ k)
    (hnlo : 256 ^ (k - 1) ≤ n) (hnhi : n ≤ 256 ^ k)
    (hRSA : ∀ m, m < n → (m ^ e % n) ^ d % n = m) :
    decrypt_aes_key H n d k (rsa_oaep_wrap H n e k seed key) = some key := by
  have hemlen := length_oaepPad H seed key k hH hseedlen hk
  have hemb := mem_oaepPad_lt H seed key k hHb hseedb hkeyb
  have hmlt : bytesToNat (oaepPad H k seed key) < 256 ^ (k - 1) := by
    obtain ⟨rest, hrest⟩ : ∃ rest, oaepPad H k seed key = 0 :: rest := ⟨_, rfl⟩
    rw [hrest, bytesToNat_cons_zero]
    have hrestb : ∀ b ∈ rest, b < 256 := fun b hb =>
      hemb b (by rw [hrest]; exact List.mem_cons_of_mem _ hb)
    have hrestlen : rest.length = k - 1 := by
      rw [hrest] at hemlen
      simp only [List.length_cons] at hemlen
      omega
    calc bytesToNat rest < 256 ^ rest.length := bytesToNat_lt rest hrestb
      _ = 256 ^ (k - 1) := by rw [hrestlen]
  have hmn : bytesToNat (oaepPad H k seed key) < n := lt_of_lt_of_le hmlt hnlo
  have hnpos : 0 < n := lt_of_lt_of_le (pow_pos (by norm_num) _) hnlo
  unfold decrypt_aes_key rsa_oaep_wrap
  have hclt : bytesToNat (oaepPad H k seed key) ^ e % n < 256 ^ k :=
    lt_of_lt_of_le (Nat.mod_lt _ hnpos) hnhi
  rw [bytesToNat_natToBytes_of_lt k _ hclt, hRSA _ hmn]
  have hback : natToBytes k (bytesToNat (oaepPad H k seed key)) = oaepPad H k seed key := by
    have h1 := natToBytes_bytesToNat (oaepPad H k seed key) hemb
    rw [hemlen] at h1
    exact h1
  rw [hback]
  exact oaepUnpad_oaepPad H seed key k hH hseedlen hk

/-- Witness for C3 at a concrete hash, seed, content key, and RSA pair
(modulus `256^82`, identity exponents — the stated key-pair property holds). -/
theorem decrypt_aes_key_unwraps_wrapped_key_witness :
    decrypt_aes_key (fun _ => List.replicate 32 0) (256 ^ 82) 1 82
      (rsa_oaep_wrap (fun _ => List.replicate 32 0) (256 ^ 82) 1 82
        (List.replicate 32 0) (List.replicate 16 7)) = some (List.replicate 16 7) :=
  decrypt_aes_key_unwraps_wrapped_key _ _ _ _ _ _ _
    (fun _ => by simp) (fun _ b hb => by simp [List.eq_of_mem_replicate hb])
    (by simp) (fun b hb => by simp [List.eq_of_mem_replicate hb])
    (by simp) (fun b hb => by simp [List.eq_of_mem_replicate hb])
    (by simp) (Nat.pow_le_pow_right (by norm_num) (by norm_num)) (le_refl _)
    (fun m hm => by rw [pow_one, pow_one, Nat.mod_eq_of_lt hm, Nat.mod_eq_of_lt hm])

/-! ## Trust Gate: integrity check (scripts/code_protection.py lines 297-310) -/

/-- Outcome of a Trust Gate check, spec taxonomy §7 (the code's `sys.exit(1)`
is modelled as an explicit failure result, spec §9). -/
inductive IntegrityResult where
  | ok
  | integrityViolation
deriving DecidableEq

/-- Embedding of `check_integrity` (`scripts/code_protection.py` lines
297-310).  The file read is modelled by its result — `none` when
`open`/`read` raises (missing file, permission denied), `some content`
otherwise; the `except` clause maps any such failure to the same abort as a
digest mismatch.  The SHA-256 hex digest is the external `hashlib` library,
abstracted as the argument `hashHex`. -/
def check_integrity (hashHex : List Nat → String) (fileContent : Option (List Nat))
    (expected_hash : String) : IntegrityResult :=
  match fileContent with
  | none => .integrityViolation
  | some content =>
    if hashHex content = expected_hash then .ok else .integrityViolation

/-- C4: `check_integrity` returns Ok iff the digest of the current full file
contents equals (plain equality) the expected manifest digest; any read
failure also yields `IntegrityViolation`, indistinguishable for the caller
from a digest mismatch. -/
theorem check_integrity_ok_iff (hashHex : List Nat → String)
    (fileContent : Option (List Nat)) (expected_hash : String) :
    (check_integrity hashHex fileContent expected_hash = .ok ↔
      ∃ content, fileContent = some content ∧ hashHex content = expected_hash)
    ∧ check_integrity hashHex none expected_hash = .integrityViolation
    ∧ (∀ content, hashHex content ≠ expected_hash →
        check_integrity hashHex (some content) expected_hash =
          check_integrity hashHex none expected_hash) := by
  refine ⟨?_, rfl, ?_⟩
  · cases fileContent with
    | none => simp [check_integrity]
    | some c =>
      by_cases h : hashHex c = expected_hash
      · simp [check_integrity, h]
      · simp [check_integrity, h]
  · intro content hne
    simp [check_integrity, hne]

/-! ## Trust Gate: anti-debug (scripts/code_protection.py lines 55-140) -/

/-- Inputs observed by `detect_and_block_debugger`, one field per dynamic
signal the seven checks read (`sys.gettrace()`, `inspect.stack()` filenames,
`sys.modules` keys, thread names, the Windows `IsDebuggerPresent` call —
`none` when the API raises —, `os.environ`, and the outcome of the float
comparison `(t2 - t1) > 0.01` over the 10000-iteration busy loop, modelled
as the Bool it yields since float timing is outside the embedding). -/
structure DebugSignals where
  gettraceActive : Bool
  stackFilenames : List String
  loadedModuleNames : List String
  threadNames : List String
  osIsNT : Bool
  isDebuggerPresentResult : Option Nat
  env : List (String × String)
  busyLoopExceeded : Bool
deriving DecidableEq

/-- Check 6 of `detect_and_block_debugger` (`scripts/code_protection.py`
lines 127-131): the first debug environment variable for which
`os.getenv(var)` is truthy (present with a non-empty value). -/
def debug_env_var_hit (env : List (String × String)) : Option String :=
  ["PYTHONBREAKPOINT", "PYDEV_DEBUG"].find? (fun v =>
    match List.lookup v env with
    | some s => !(s == "")
    | none => false)

/-- Whether check 6 triggers. -/
def debug_env_var_check (env : List (String × String)) : Bool :=
  (debug_env_var_hit env).isSome

/-- Embedding of `detect_and_block_debugger` (`scripts/code_protection.py`
lines 55-140): the seven checks in source order, short-circuiting at the
first trigger; `some msg` is the printed diagnostic before `sys.exit(1)`,
`none` means the gate check passes. -/
def detect_and_block_debugger (s : DebugSignals) : Option String :=
  if s.gettraceActive then
    some "Debugger detectado via sys.gettrace(). Abortando."
  else if s.stackFilenames.any (fun f =>
      ["pdb", "pydevd", "debug"].any (fun d => containsSub d (strLower f))) then
    some "[!] Debugger detectado via stack trace!"
  else if s.loadedModuleNames.contains "debugpy" then
    some "Debugger detectado via módulo debugpy carregado. Abortando."
  else if s.threadNames.any (fun t => strStartsWith t "pydevd") then
    some "Debugger detectado via thread pydevd. Abortando."
  else if s.osIsNT && (match s.isDebuggerPresentResult with
      | some r => r != 0
      | none => false) then
    some "Debugger detectado via IsDebuggerPresent. Abortando."
  else
    match debug_env_var_hit s.env with
    | some v => some ("Debugger detectado via variável " ++ v ++ ". Abortando.")
    | none =>
      if s.busyLoopExceeded then
        some "Debugger detectado via atraso suspeito. Abortando."
      else none

/-- C6 counterexample: `PYTHONBREAKPOINT` present in the environment with an
empty value.  The claim says presence regardless of value (including an empty
value) triggers detection and fails the gate, but `if os.getenv(var):` is
false for the empty string: the check does not trigger and the whole
debugger gate passes. -/
theorem debug_env_var_empty_value_not_detected :
    List.lookup "PYTHONBREAKPOINT" [("PYTHONBREAKPOINT", "")] = some "" ∧
    debug_env_var_check [("PYTHONBREAKPOINT", "")] = false ∧
    detect_and_block_debugger
      ⟨false, [], [], [], false, none, [("PYTHONBREAKPOINT", "")], false⟩ = none := by
  refine ⟨rfl, rfl, ?_⟩
  decide

/-- C6 (amended): the environment-variable check of the debugger detector
triggers iff some policy-declared debug variable is present in the
environment with a non-empty value; presence with an empty value, like
absence, does not trigger. -/
theorem debug_env_var_check_iff (env : List (String × String)) :
    debug_env_var_check env = true ↔
      ∃ v ∈ ["PYTHONBREAKPOINT", "PYDEV_DEBUG"],
        ∃ s, List.lookup v env = some s ∧ s ≠ "" := by
  unfold debug_env_var_check debug_env_var_hit
  rw [List.find?_isSome]
  constructor
  · rintro ⟨v, hv, hp⟩
    refine ⟨v, hv, ?_⟩
    cases hlk : List.lookup v env with
    | none => rw [hlk] at hp; simp at hp
    | some s =>
      rw [hlk] at hp
      refine ⟨s, rfl, ?_⟩
      simpa using hp
  · rintro ⟨v, hv, s, hlk, hs⟩
    refine ⟨v, hv, ?_⟩
    rw [hlk]
    simpa using hs

/-! ## Trust Gate: anti-instrumentation (scripts/code_protection.py lines 145-250) -/

/-- One entry of `sys.modules`: the module name and its `__file__` origin
(`none` for built-ins).  Paths are taken as already absolute, modelling
`os.path.abspath` as the identity on them. -/
structure ModuleInfo where
  name : String
  file : Option String
deriving DecidableEq

/-- One row of `psutil.process_iter(["name", "exe", "cmdline"])`;
`accessible = false` models `NoSuchProcess`/`AccessDenied`, which the code
swallows by skipping the process. -/
structure ProcessInfo where
  accessible : Bool
  name : Option String
  cmdline : Option (List String)
deriving DecidableEq

/-- The `suspicious_modules` blocklist literal
(`scripts/code_protection.py` lines 192-199). -/
def suspicious_modules : List String :=
  ["frida", "pydbg", "ctypeshook", "pyhook", "pydevd", "winappdbg",
   "pyinjector", "injector", "pymem", "ptrace", "volatility", "hexdump",
   "pyxhook", "capstone", "keystone", "unicorn", "tracer", "hooker",
   "ipdb", "rpdb", "remote_pdb", "pydebugger", "pytrace", "pyspoofer",
   "python_hooker", "hunter", "snoop", "manhole", "xhook", "pyrebox",
   "objdump"]

/-- The `suspicious_processes` blocklist literal
(`scripts/code_protection.py` lines 202-205). -/
def suspicious_processes : List String :=
  ["frida-server", "frida-trace", "ollydbg", "ida64", "ida32", "x64dbg", "x32dbg",
   "wireshark", "dnspy", "cheatengine", "gdb", "radare2", "immunitydebugger"]

/-- The `allowed_paths` list (`scripts/code_protection.py` lines 215-220),
built from `sysconfig.get_paths()["stdlib"]` and `sys.base_prefix`
(`os.path.join` modelled with the POSIX separator). -/
def allowed_paths (stdlibPath sysBase : String) : List String :=
  [strLower stdlibPath,
   strLower sysBase ++ "/dlls",
   strLower sysBase ++ "/libs",
   strLower sysBase ++ "/lib/site-packages"]

/-- The per-module body of check 2 of `detect_malicious_modules`
(`scripts/code_protection.py` lines 222-238): skip modules without
`__file__`; exempt `__main__`, any module whose name contains
`pyarmor_runtime`, and any module whose lowered path contains
`dist_protected`; otherwise flag the module unless its lowered path starts
with one of the allowed roots. -/
def flagged_by_path_check (allowed : List String) (m : ModuleInfo) : Bool :=
  match m.file with
  | none => false
  | some p =>
    let path := strLower p
    if m.name == "__main__" || containsSub "pyarmor_runtime" m.name then false
    else if containsSub "dist_protected" path then false
    else if allowed.any (fun a => strStartsWith path a) then false
    else true

/-- Check 1 of `detect_malicious_modules` (lines 207-212): the first loaded
module whose lowered name contains a blocklisted substring. -/
def module_name_check (mods : List ModuleInfo) : Option String :=
  (mods.find? (fun m =>
    suspicious_modules.any (fun s => containsSub s (strLower m.name)))).map
    (fun m => "[!] Módulo suspeito detectado: " ++ m.name ++ ". Abortando.")

/-- Check 2 of `detect_malicious_modules` (lines 222-238): the first loaded
module flagged by the path check. -/
def module_path_check (allowed : List String) (mods : List ModuleInfo) : Option String :=
  (mods.find? (flagged_by_path_check allowed)).map
    (fun m => "[!] Módulo " ++ m.name ++ " carregado de caminho suspeito: " ++
      strLower (m.file.getD ""))

/-- The per-process body of check 3 (lines 241-250): blocklist containment
over the lowered name and the lowered joined command line. -/
def process_suspicious (p : ProcessInfo) : Bool :=
  let nm := strLower (p.name.getD "")
  let cmd := strLower (String.intercalate " " (p.cmdline.getD []))
  suspicious_processes.any (fun s => containsSub s nm || containsSub s cmd)

/-- Check 3 of `detect_malicious_modules` (lines 241-250); inaccessible
processes are skipped, not treated as failures. -/
def process_check (procs : List ProcessInfo) : Option String :=
  (procs.find? (fun p => p.accessible && process_suspicious p)).map
    (fun p =>
      let nm := strLower (p.name.getD "")
      let cmd := strLower (String.intercalate " " (p.cmdline.getD []))
      "[!] Processo suspeito detectado: " ++ (if nm ≠ "" then nm else cmd) ++ ". Abortando.")

/-- The `sys`/`sysconfig`/`psutil` state read by `detect_malicious_modules`. -/
structure SysState where
  modules : List ModuleInfo
  stdlibPath : String
  sysBase : String
  processes : List ProcessInfo
deriving DecidableEq

/-- Embedding of `detect_malicious_modules` (`scripts/code_protection.py`
lines 145-250): the three checks in source order; `some msg` is the printed
diagnostic before `sys.exit(1)`, `none` means the gate check passes. -/
def detect_malicious_modules (st : SysState) : Option String :=
  match module_name_check st.modules with
  | some msg => some msg
  | none =>
    match module_path_check (allowed_paths st.stdlibPath st.sysBase) st.modules with
    | some msg => some msg
    | none => process_check st.processes

/-- C7 counterexample: a module named `pyarmor_runtime_x` loaded from
`/evil/mod.py` — a path outside every allowed root, not the entry module
(`__main__`), and not inside the protected-deployment (`dist_protected`)
tree.  The claim's "exactly two hard-coded exemptions" would require this
module to fail the gate, but the code has a third exemption (any module
whose name contains `pyarmor_runtime`): the module is not flagged and the
path check passes. -/
theorem module_path_two_exemptions_counterexample :
    "pyarmor_runtime_x" ≠ "__main__" ∧
    containsSub "dist_protected" (strLower "/evil/mod.py") = false ∧
    (["/usr/lib/python3.10"].any fun a => strStartsWith (strLower "/evil/mod.py") a) = false ∧
    flagged_by_path_check ["/usr/lib/python3.10"]
      ⟨"pyarmor_runtime_x", some "/evil/mod.py"⟩ = false ∧
    module_path_check ["/usr/lib/python3.10"]
      [⟨"pyarmor_runtime_x", some "/evil/mod.py"⟩] = none := by
  decide

/-- C7 (amended): in the module-path check, a loaded module fails the gate
iff it has an origin path, that lowered path neither contains the
protected-deployment marker `dist_protected` nor starts with any allowed
root, and the module falls under neither of the THREE hard-coded name
exemptions: the entry module `__main__` and any module whose name contains
`pyarmor_runtime`; and the gate's path check reports a failure iff some
loaded module is flagged. -/
theorem module_path_check_spec (allowed : List String) (m : ModuleInfo)
    (mods : List ModuleInfo) :
    (flagged_by_path_check allowed m = true ↔
      ∃ p, m.file = some p ∧
        (m.name == "__main__") = false ∧
        containsSub "pyarmor_runtime" m.name = false ∧
        containsSub "dist_protected" (strLower p) = false ∧
        (allowed.any fun a => strStartsWith (strLower p) a) = false)
    ∧ ((module_path_check allowed mods).isSome = true ↔
        ∃ mm ∈ mods, flagged_by_path_check allowed mm = true) := by
  constructor
  · obtain ⟨nm, fl⟩ := m
    cases fl with
    | none => simp [flagged_by_path_check]
    | some p =>
      simp only [flagged_by_path_check]
      constructor
      · intro h
        split_ifs at h with h1 h2 h3
        simp only [Bool.or_eq_true, not_or, Bool.not_eq_true] at h1 h2 h3
        exact ⟨p, rfl, h1.1, h1.2, h2, h3⟩
      · rintro ⟨p', hp', hA, hB, hC, hD⟩
        obtain rfl : p' = p := by simpa using hp'.symm
        rw [if_neg (by simp [hA, hB]), if_neg (by simp [hC]), if_neg (by simp [hD])]
  · unfold module_path_check
    cases hf : mods.find? (flagged_by_path_check allowed) with
    | none =>
      constructor
      · intro h; exact absurd h (by simp)
      · rintro ⟨mm, hmm, hflag⟩
        have hnone := List.find?_eq_none.mp hf mm hmm
        exact absurd hflag (by simpa using hnone)
    | some mm =>
      exact ⟨fun _ => ⟨mm, List.mem_of_find?_eq_some hf, List.find?_some hf⟩, fun _ => rfl⟩

/-! ## Startup gating and benchmark pipeline (main.py) -/

/-- Whether a Trust Gate integrity check passes (no `sys.exit`). -/
def integrityOk (hashHex : List Nat → String) (fileContent : Option (List Nat))
    (expected_hash : String) : Bool :=
  match check_integrity hashHex fileContent expected_hash with
  | .ok => true
  | .integrityViolation => false

/-- Everything an execution of `main.py` reads: the directory of the module
(for `IS_PRODUCTION`), the digest function, the three protected files and
their `hash_registry_obfuscated` constants, and the dynamic state the two
detection functions observe. -/
structure World where
  mainDir : String
  hashHex : List Nat → String
  mainPyFile : Option (List Nat)
  decryptPyFile : Option (List Nat)
  modelEncFile : Option (List Nat)
  hashMainPy : String
  hashDecryptPy : String
  hashModelEnc : String
  debugSignals : DebugSignals
  sysState : SysState

/-- Observable events of one execution of `main.py`: the gate checks with
their outcomes, the development-mode notice, and the per-iteration pipeline
stages. -/
inductive Event where
  | integrityCheck (passed : Bool)
  | debuggerCheck (passed : Bool)
  | moduleCheck (passed : Bool)
  | devModeNotice
  | unwrapContentKey
  | decryptAsset
  | loadModel
  | inference
deriving DecidableEq

/-- Embedding of `IS_PRODUCTION` (`main.py` line 29):
`"dist_protected" in os.path.abspath(os.path.dirname(__file__))`. -/
def IS_PRODUCTION (w : World) : Bool :=
  containsSub "dist_protected" w.mainDir

/-- The module-level gate sequence of `main.py` lines 31-43 in production
mode: three `check_integrity` calls, then `detect_and_block_debugger`, then
`detect_malicious_modules`, each aborting the process on failure
(short-circuiting the rest).  Returns the emitted check events and whether
the process survives. -/
def gateRun (w : World) : List Event × Bool :=
  let i1 := integrityOk w.hashHex w.mainPyFile w.hashMainPy
  let i2 := integrityOk w.hashHex w.decryptPyFile w.hashDecryptPy
  let i3 := integrityOk w.hashHex w.modelEncFile w.hashModelEnc
  let dbg := (detect_and_block_debugger w.debugSignals).isNone
  let mods := (detect_malicious_modules w.sysState).isNone
  if i1 = false then ([.integrityCheck false], false)
  else if i2 = false then ([.integrityCheck true, .integrityCheck false], false)
  else if i3 = false then
    ([.integrityCheck true, .integrityCheck true, .integrityCheck false], false)
  else if dbg = false then
    ([.integrityCheck true, .integrityCheck true, .integrityCheck true,
      .debuggerCheck false], false)
  else if mods = false then
    ([.integrityCheck true, .integrityCheck true, .integrityCheck true,
      .debuggerCheck true, .moduleCheck false], false)
  else
    ([.integrityCheck true, .integrityCheck true, .integrityCheck true,
      .debuggerCheck true, .moduleCheck true], true)

/-- All five gate checks pass. -/
def gateAllPassed (w : World) : Bool :=
  integrityOk w.hashHex w.mainPyFile w.hashMainPy &&
  integrityOk w.hashHex w.decryptPyFile w.hashDecryptPy &&
  integrityOk w.hashHex w.modelEncFile w.hashModelEnc &&
  (detect_and_block_debugger w.debugSignals).isNone &&
  (detect_malicious_modules w.sysState).isNone

/-- The pipeline events of `main` / `run_once` (`main.py` lines 48-137):
each iteration unwraps the content key (`decrypt_aes_key`), decrypts the
asset (`decrypt_model`), loads it, and runs one inference. -/
def benchEvents (runs : Nat) : List Event :=
  (List.range runs).flatMap
    (fun _ => [.unwrapContentKey, .decryptAsset, .loadModel, .inference])

/-- One execution of `main.py` run as a script: the module-level gate (only
in production mode — the development branch prints a notice and skips every
check), then the benchmark loop. -/
def programTrace (w : World) (runs : Nat) : List Event :=
  if IS_PRODUCTION w then
    (gateRun w).1 ++ (if (gateRun w).2 then benchEvents runs else [])
  else
    .devModeNotice :: benchEvents runs

/-- C1 counterexample: a development-mode execution (module directory
without `dist_protected`) in which a debugger signal is active and every
integrity file is unreadable — no gate check has passed (the gate never even
runs) — yet the pipeline still calls the key unwrap.  This falsifies "no
call to unwrapContentKey/decryptAsset happens unless every gate check has
passed" for executions of the pipeline in general. -/
theorem gate_before_unwrap_counterexample :
    IS_PRODUCTION
      { mainDir := "/home/dev/secure-ai-model"
        hashHex := fun _ => "deadbeef"
        mainPyFile := none, decryptPyFile := none, modelEncFile := none
        hashMainPy := "h1", hashDecryptPy := "h2", hashModelEnc := "h3"
        debugSignals := ⟨true, [], [], [], false, none, [], false⟩
        sysState := ⟨[], "/usr/lib/python3.10", "/usr", []⟩ } = false ∧
    gateAllPassed
      { mainDir := "/home/dev/secure-ai-model"
        hashHex := fun _ => "deadbeef"
        mainPyFile := none, decryptPyFile := none, modelEncFile := none
        hashMainPy := "h1", hashDecryptPy := "h2", hashModelEnc := "h3"
        debugSignals := ⟨true, [], [], [], false, none, [], false⟩
        sysState := ⟨[], "/usr/lib/python3.10", "/usr", []⟩ } = false ∧
    Event.unwrapContentKey ∈ programTrace
      { mainDir := "/home/dev/secure-ai-model"
        hashHex := fun _ => "deadbeef"
        mainPyFile := none, decryptPyFile := none, modelEncFile := none
        hashMainPy := "h1", hashDecryptPy := "h2", hashModelEnc := "h3"
        debugSignals := ⟨true, [], [], [], false, none, [], false⟩
        sysState := ⟨[], "/usr/lib/python3.10", "/usr", []⟩ } 1 := by
  refine ⟨by decide, by decide, by decide⟩

/-- C1 (amended): in production mode (module directory containing
`dist_protected`) the Trust Gate runs all checks at process start, aborting
on any failure before the benchmark begins: no call to the key unwrap ever
happens unless every gate check has passed.  In development mode the checks
are skipped entirely and the pipeline runs ungated. -/
theorem production_gate_before_unwrap (w : World) (runs : Nat)
    (hprod : IS_PRODUCTION w = true)
    (hmem : Event.unwrapContentKey ∈ programTrace w runs) :
    gateAllPassed w = true := by
  unfold programTrace at hmem
  rw [hprod] at hmem
  simp only [if_true] at hmem
  simp only [gateRun] at hmem
  unfold gateAllPassed
  cases hi1 : integrityOk w.hashHex w.mainPyFile w.hashMainPy with
  | false => simp [hi1] at hmem
  | true =>
    simp only [hi1] at hmem
    cases hi2 : integrityOk w.hashHex w.decryptPyFile w.hashDecryptPy with
    | false => simp [hi2] at hmem
    | true =>
      simp only [hi2] at hmem
      cases hi3 : integrityOk w.hashHex w.modelEncFile w.hashModelEnc with
      | false => simp [hi3] at hmem
      | true =>
        simp only [hi3] at hmem
        cases hdbg : (detect_and_block_debugger w.debugSignals).isNone with
        | false => simp [hdbg] at hmem
        | true =>
          simp only [hdbg] at hmem
          cases hmods : (detect_malicious_modules w.sysState).isNone with
          | false => simp [hmods] at hmem
          | true => simp [hi1, hi2, hi3, hdbg, hmods]

/-- Witness for C1 (amended) at a concrete production-mode world in which
every check passes and one benchmark iteration runs. -/
theorem production_gate_before_unwrap_witness :
    gateAllPassed
      { mainDir := "/app/dist_protected"
        hashHex := fun _ => "h"
        mainPyFile := some [], decryptPyFile := some [], modelEncFile := some []
        hashMainPy := "h", hashDecryptPy := "h", hashModelEnc := "h"
        debugSignals := ⟨false, [], [], [], false, none, [], false⟩
        sysState := ⟨[], "/usr/lib/python3.10", "/usr", []⟩ } = true :=
  production_gate_before_unwrap
    { mainDir := "/app/dist_protected"
      hashHex := fun _ => "h"
      mainPyFile := some [], decryptPyFile := some [], modelEncFile := some []
      hashMainPy := "h", hashDecryptPy := "h", hashModelEnc := "h"
      debugSignals := ⟨false, [], [], [], false, none, [], false⟩
      sysState := ⟨[], "/usr/lib/python3.10", "/usr", []⟩ } 1
    (by decide) (by decide)

/-! ## Benchmark harness timings (main.py lines 48-158) -/

/-- Embedding of `run_once` (`main.py` lines 48-103) over an abstract wall
clock: reading `j` of `time.time()` during an iteration based at `base` is
`ts (base + j)`.  The eight readings in source order: start of total (line
68), start of decryption (71), end of decryption (77), start of load (80),
end of load (83), start of inference (89), end of inference (92), end of
total (94).  The value is the returned metrics dict in insertion order —
the decryption entry covers both the key unwrap and the asset decrypt. -/
def run_once (ts : Nat → Int) (base : Nat) : List (String × Int) :=
  [("decryption_time", ts (base + 2) - ts (base + 1)),
   ("load_time", ts (base + 4) - ts (base + 3)),
   ("inference_time", ts (base + 6) - ts (base + 5)),
   ("total_time", ts (base + 7) - ts base)]

/-- Embedding of the benchmark loop of `main` (`main.py` lines 127-137),
generalized from the hard-coded 2000 to `runs` iterations: the collected
`results` list, in execution order. -/
def benchmark_results (ts : Nat → Int) (runs : Nat) : List (List (String × Int)) :=
  (List.range runs).map (fun i => run_once ts (8 * i))

/-- C5 counterexample: a benchmark record holds exactly the four keys
`decryption_time`, `load_time`, `inference_time`, `total_time` — there is no
separate unwrap-key entry, so no record can contain five distinct timing
fields as the claim states. -/
theorem run_once_five_fields_counterexample :
    ((run_once (fun j => (j : Int)) 0).map Prod.fst =
      ["decryption_time", "load_time", "inference_time", "total_time"]) ∧
    ¬ ∃ ks : List String, ks.Nodup ∧ ks.length = 5 ∧
        ∀ f ∈ ks, f ∈ (run_once (fun j => (j : Int)) 0).map Prod.fst := by
  constructor
  · rfl
  · rintro ⟨ks, hnd, hlen, hsub⟩
    have h1 : ks.toFinset.card = 5 := by
      rw [List.toFinset_card_of_nodup hnd, hlen]
    have h2 : ks.toFinset ⊆ ((run_once (fun j => (j : Int)) 0).map Prod.fst).toFinset := by
      intro x hx
      rw [List.mem_toFinset] at hx ⊢
      exact hsub x hx
    have h3 := Finset.card_le_card h2
    have h4 : ((run_once (fun j => (j : Int)) 0).map Prod.fst).toFinset.card ≤ 4 := by
      have hle := List.toFinset_card_le ((run_once (fun j => (j : Int)) 0).map Prod.fst)
      simpa [run_once] using hle
    omega

/-- C5 (amended): over any nondecreasing clock, `run(0)` returns an empty
session, and `run(k)` returns exactly `k` records in execution order, each
containing the four timing fields `decryption_time` (covering key unwrap and
asset decrypt together), `load_time`, `inference_time`, `total_time`, each
field ≥ 0, with `total_time ≥ decryption_time + load_time +
inference_time`. -/
theorem benchmark_run_spec (ts : Nat → Int) (hmono : Monotone ts) (runs : Nat) :
    benchmark_results ts 0 = [] ∧
    (benchmark_results ts runs).length = runs ∧
    (∀ i, i < runs → (benchmark_results ts runs).get? i = some (run_once ts (8 * i))) ∧
    (∀ i, i < runs → ∃ dt lt it tt : Int,
      run_once ts (8 * i) =
        [("decryption_time", dt), ("load_time", lt),
         ("inference_time", it), ("total_time", tt)] ∧
      0 ≤ dt ∧ 0 ≤ lt ∧ 0 ≤ it ∧ 0 ≤ tt ∧ dt + lt + it ≤ tt) := by
  refine ⟨by simp [benchmark_results], by simp [benchmark_results], ?_, ?_⟩
  · intro i hi
    simp only [benchmark_results, List.get?_eq_getElem?, List.getElem?_map,
      List.getElem?_range hi, Option.map_some']
  · intro i hi
    have a0 : ts (8 * i) ≤ ts (8 * i + 1) := hmono (by omega)
    have a1 : ts (8 * i + 1) ≤ ts (8 * i + 2) := hmono (by omega)
    have a2 : ts (8 * i + 2) ≤ ts (8 * i + 3) := hmono (by omega)
    have a3 : ts (8 * i + 3) ≤ ts (8 * i + 4) := hmono (by omega)
    have a4 : ts (8 * i + 4) ≤ ts (8 * i + 5) := hmono (by omega)
    have a5 : ts (8 * i + 5) ≤ ts (8 * i + 6) := hmono (by omega)
    have a6 : ts (8 * i + 6) ≤ ts (8 * i + 7) := hmono (by omega)
    exact ⟨_, _, _, _, rfl, by omega, by omega, by omega, by omega, by omega⟩

/-- Witness for C5 (amended) at the identity clock and two iterations. -/
theorem benchmark_run_spec_witness :
    benchmark_results (fun j => (j : Int)) 0 = [] ∧
    (benchmark_results (fun j => (j : Int)) 2).length = 2 :=
  ⟨(benchmark_run_spec (fun j => (j : Int)) (fun _ _ h => Int.ofNat_le.mpr h) 0).1,
   (benchmark_run_spec (fun j => (j : Int)) (fun _ _ h => Int.ofNat_le.mpr h) 2).2.1⟩

/-! ## Resource release inside an iteration (main.py lines 67-101) -/

/-- The statements of `run_once` (`main.py` lines 67-101) in source order,
named by what they do: the two decryption calls and the timing record, the
model load and its record, the dummy-input creation, the inference and its
record, the total record, then the four `del` statements and the CUDA cache
drop. -/
inductive RunStep where
  | callDecryptAesKey
  | callDecryptModel
  | recordDecryptionTime
  | callLoadModel
  | recordLoadTime
  | createDummyInput
  | runInference
  | recordInferenceTime
  | recordTotalTime
  | delModel
  | delModelBytes
  | delAesKey
  | delDummyInput
  | emptyCudaCache
deriving DecidableEq

/-- The statement order of one `run_once` iteration (`main.py` lines
67-101). -/
def run_once_steps : List RunStep :=
  [.callDecryptAesKey, .callDecryptModel, .recordDecryptionTime,
   .callLoadModel, .recordLoadTime, .createDummyInput,
   .runInference, .recordInferenceTime, .recordTotalTime,
   .delModel, .delModelBytes, .delAesKey, .delDummyInput, .emptyCudaCache]

/-- C8 counterexample: the content key (`aes_key`) is NOT dropped
immediately after the decrypt step that consumes it — the model load and the
inference both run before `del aes_key`, so the key outlives the decrypt
step by the whole remainder of the iteration. -/
theorem content_key_release_counterexample :
    run_once_steps.indexOf RunStep.callLoadModel <
      run_once_steps.indexOf RunStep.delAesKey ∧
    run_once_steps.indexOf RunStep.runInference <
      run_once_steps.indexOf RunStep.delAesKey ∧
    ¬ run_once_steps.indexOf RunStep.delAesKey <
        run_once_steps.indexOf RunStep.callLoadModel := by
  decide

/-- C8 (amended): every transient of an iteration — the loaded model, the
plaintext model bytes, the content key, and the synthetic input — has an
explicit `del` in `run_once`, placed at the end of the iteration after the
total-time record (hence after load and inference, not immediately after
the decrypt step), before the iteration ends and the next one begins, and
followed by the accelerator-cache drop. -/
theorem transients_released_at_iteration_end :
    RunStep.delModel ∈ run_once_steps ∧
    RunStep.delModelBytes ∈ run_once_steps ∧
    RunStep.delAesKey ∈ run_once_steps ∧
    RunStep.delDummyInput ∈ run_once_steps ∧
    run_once_steps.indexOf RunStep.recordTotalTime <
      run_once_steps.indexOf RunStep.delModel ∧
    run_once_steps.indexOf RunStep.recordTotalTime <
      run_once_steps.indexOf RunStep.delModelBytes ∧
    run_once_steps.indexOf RunStep.recordTotalTime <
      run_once_steps.indexOf RunStep.delAesKey ∧
    run_once_steps.indexOf RunStep.recordTotalTime <
      run_once_steps.indexOf RunStep.delDummyInput ∧
    run_once_steps.indexOf RunStep.delDummyInput <
      run_once_steps.indexOf RunStep.emptyCudaCache := by
  decide

/-! ## Asset loader (scripts/decrypt_model.py lines 236-319) -/

/-- The runtime model object (`ultralytics` `DetectionModel`) as far as the
loader observes it: how it was constructed, which state-dict keys were
installed, and whether `eval()` has put it in inference mode.  The concrete
tensor runtime is an external collaborator (spec §6). -/
structure DModel where
  cfg : String
  sdKeys : List String
  evalMode : Bool
deriving DecidableEq

/-- Runtime shape of the value `torch.load` deserialized: a `DetectionModel`
object, a Python dict, or any other object (carrying its type name for the
error message). -/
inductive PyValue where
  | det (m : DModel)
  | pdict (entries : List (String × PyValue))
  | other (tag : String)

/-- Python's type name of a loaded value, for the `TypeError` messages. -/
def pyTypeName : PyValue → String
  | .det _ => "DetectionModel"
  | .pdict _ => "dict"
  | .other t => t

/-- Embedding of `DetectionModel('yolov8n.yaml')`: the default skeleton
constructor (external collaborator). -/
def DetectionModel_new (cfg : String) : DModel :=
  ⟨cfg, [], false⟩

/-- Embedding of `model.load_state_dict(sd)`: installing a parameter table
into a model. -/
def load_state_dict (m : DModel) (sd : List (String × PyValue)) : DModel :=
  ⟨m.cfg, sd.map Prod.fst, m.evalMode⟩

/-- Embedding of `model.eval()`: switch the model into evaluation/inference
mode. -/
def setEvalMode (m : DModel) : DModel :=
  ⟨m.cfg, m.sdKeys, true⟩

/-- Whether a loader result is a successful load (no raised `TypeError`). -/
def exceptOk {e a : Type} : Except e a → Bool
  | .ok _ => true
  | .error _ => false

/-- Embedding of `load_model_from_bytes` (`scripts/decrypt_model.py` lines
286-319).  `torch.load` is the external deserializer, abstracted as
`torchLoad`; the dispatch on the deserialized value's runtime shape and the
final `model.eval()` are the code under verification.  `Except.error`
carries the `TypeError` message raised for unrecognized shapes. -/
def load_model_from_bytes (torchLoad : List Nat → PyValue)
    (modelBytes : List Nat) : Except String DModel :=
  match torchLoad modelBytes with
  | .pdict entries =>
    match List.lookup "model" entries with
    | some (.det m) => .ok (setEvalMode m)
    | some (.pdict sd) =>
      .ok (setEvalMode (load_state_dict (DetectionModel_new "yolov8n.yaml") sd))
    | some v => .error ("Unsupported model data type: " ++ pyTypeName v)
    | none =>
      .ok (setEvalMode (load_state_dict (DetectionModel_new "yolov8n.yaml") entries))
  | .det m => .ok (setEvalMode m)
  | v => .error ("Unexpected loaded type: " ++ pyTypeName v)

/-- The four recognized container shapes as the claim lists them: the asset
object directly; a mapping whose `model` entry is the asset object; a
mapping whose `model` entry is a parameter table; a parameter table directly
(a mapping without a `model` entry). -/
def specRecognizedShape : PyValue → Bool
  | .det _ => true
  | .pdict entries =>
    match List.lookup "model" entries with
    | some (.det _) => true
    | some (.pdict _) => true
    | some _ => false
    | none => true
  | .other _ => false

/-- C9: `load_model_from_bytes` dispatches solely on the deserialized
value's runtime shape: it succeeds exactly on the four recognized container
variants and fails with the `TypeError` (`DeserializationError`) for every
unrecognized shape, and every successfully returned model has been put into
evaluation/inference mode. -/
theorem load_model_from_bytes_spec (torchLoad : List Nat → PyValue)
    (modelBytes : List Nat) :
    (exceptOk (load_model_from_bytes torchLoad modelBytes) =
      specRecognizedShape (torchLoad modelBytes)) ∧
    (∀ m, load_model_from_bytes torchLoad modelBytes = .ok m → m.evalMode = true) := by
  constructor
  · cases hv : torchLoad modelBytes with
    | det m => simp [load_model_from_bytes, specRecognizedShape, hv, exceptOk]
    | other t => simp [load_model_from_bytes, specRecognizedShape, hv, exceptOk]
    | pdict entries =>
      simp only [load_model_from_bytes, specRecognizedShape, hv]
      cases List.lookup "model" entries with
      | none => rfl
      | some vv => cases vv <;> rfl
  · intro m
    cases hv : torchLoad modelBytes with
    | det m' =>
      simp only [load_model_from_bytes, hv, Except.ok.injEq]
      intro hm
      rw [← hm]
      rfl
    | other t =>
      simp only [load_model_from_bytes, hv]
      intro hm
      exact absurd hm (by simp)
    | pdict entries =>
      simp only [load_model_from_bytes, hv]
      cases List.lookup "model" entries with
      | none =>
        simp only [Except.ok.injEq]
        intro hm
        rw [← hm]
        rfl
      | some vv =>
        cases vv with
        | det m' =>
          simp only [Except.ok.injEq]
          intro hm
          rw [← hm]
          rfl
        | pdict sd =>
          simp only [Except.ok.injEq]
          intro hm
          rw [← hm]
          rfl
        | other t =>
          intro hm
          exact absurd hm (by simp)
